import Mathlib

set_option maxRecDepth 100000
set_option maxHeartbeats 4000000

/-!
Shallow embedding of the breaking-news batch pipeline of
src/app/modules/breakingNews.js.

The persistent store is modelled as an explicit state (DB) with three
collections: User, Article and the queue collection BreakingNewsQueuedItem.
The store operation get(collection, filter, sort/skip/limit) is modelled as
filter, then a stable ascending sort by the sort key, then drop skip and
take limit; the store may in general answer with a null result, modelled as
an Option around the record list (the source coalesces null to an empty
array at lines 22 and 123).

Timer-deferred continuations (setTimeout at lines 106 and 173) are modelled
explicitly: an invocation of sendQueuedItems or queueBreakingNewsItems
returns the state reached by its awaited portion (one page) together with
the continuation it scheduled; the full timer chain of sendQueuedItems is
then modelled as a fuelled iteration of such steps.
-/

/-- Page size constant BATCH_SIZE (line 6 of the source). -/
def BATCH_SIZE : Nat := 1000

/-- Delay constant BATCH_DELAY_MS (line 7 of the source); the delay value
itself has no effect on the state semantics modelled here. -/
def BATCH_DELAY_MS : Nat := 1000

/-- Name of the queue collection (line 9 of the source). -/
def QUEUE_COLLECTION : String := "BreakingNewsQueuedItem"

/-- Configured read-server base URL (line 8 of the source); the value comes
from external configuration and is modelled as a fixed placeholder. -/
def READ_SERVER_BASE_URL : String := "https://read.example.org"

/-- Embedded user profile object: recUser.profile.created (line 134). -/
structure UserProfile where
  created : Nat
  deriving DecidableEq

/-- Embedded bot object of a user record: recUser.bot.disabled (line 116). -/
structure UserBot where
  disabled : Option Bool
  deriving DecidableEq

/-- A record of the User collection. -/
structure UserRec where
  _id : Nat
  bot : UserBot
  profile : UserProfile
  deriving DecidableEq

/-- A record of the Article collection. -/
structure ArticleRec where
  _id : Nat
  feedId : Nat
  title : String
  description : String
  imageUrl : String
  articleDate : Nat
  isPublished : Option Bool
  isPriority : Bool
  _receivedByUsers : List Nat
  deriving DecidableEq

/-- A record of the BreakingNewsQueuedItem collection: a queued obligation
with embedded user and article snapshots (lines 163 to 166) and the implicit
insertion timestamp addedDate used as the drain sort key (line 17). -/
structure QueueItem where
  _id : Nat
  addedDate : Nat
  userData : UserRec
  articleData : ArticleRec
  deriving DecidableEq

/-- The persistent store state: the three collections touched by the
pipeline, plus a counter supplying fresh identifiers and insertion
timestamps for queue inserts. -/
structure DB where
  users : List UserRec
  articles : List ArticleRec
  queue : List QueueItem
  nextId : Nat
  deriving DecidableEq

/-- Insert x into a list that is already ascending by key, keeping it
ascending; used to model the sort option of the store get operation. -/
def insertByKey (key : α → Nat) (x : α) : List α → List α
  | [] => [x]
  | y :: l => if key y ≤ key x then y :: insertByKey key x l else x :: y :: l

/-- Ascending sort by a numeric key, modelling sort ascending in the store
get options. -/
def sortByKey (key : α → Nat) : List α → List α
  | [] => []
  | x :: l => insertByKey key x (sortByKey key l)

/-- Store get on the queue collection (lines 16 to 20): empty filter, sort
by addedDate ascending, skip and limit BATCH_SIZE.  This concrete store
always answers with a (possibly empty) list; a null answer is modelled by
none at the call sites that exercise it. -/
def storeGetQueue (db : DB) (skip : Nat) : Option (List QueueItem) :=
  some (((sortByKey (fun it => it.addedDate) db.queue).drop skip).take BATCH_SIZE)

/-- Null coalescing of the store answer for the queue page (line 22 of the
source: recQueueItems or else empty array). -/
def getBatchOfQueuedItems (raw : Option (List QueueItem)) : List QueueItem :=
  raw.getD []

/-- getBatchOfQueuedItems applied to the concrete store (lines 14 to 24). -/
def getBatchOfQueuedItemsDB (db : DB) (skip : Nat) : List QueueItem :=
  getBatchOfQueuedItems (storeGetQueue db skip)

/-- Store get on the User collection (lines 115 to 121): filter
bot.disabled not equal true, sort by identifier ascending, skip and limit
BATCH_SIZE. -/
def storeGetUsers (db : DB) (skip : Nat) : Option (List UserRec) :=
  some (((sortByKey (fun u => u._id)
    (db.users.filter (fun u => !(u.bot.disabled == some true)))).drop skip).take BATCH_SIZE)

/-- Null coalescing of the store answer for the user page (line 123 of the
source: recUsers or else empty array). -/
def getBatchOfUsers (raw : Option (List UserRec)) : List UserRec :=
  raw.getD []

/-- getBatchOfUsers applied to the concrete store (lines 113 to 125). -/
def getBatchOfUsersDB (db : DB) (skip : Nat) : List UserRec :=
  getBatchOfUsers (storeGetUsers db skip)

/-- The filter conditions of getNextBreakingNewsForUser (lines 132 to 137):
the user is not in the received set, the article date is strictly after the
profile creation time, isPublished is not explicitly false, and isPriority
is true. -/
def breakingNewsConditions (u : UserRec) (a : ArticleRec) : Bool :=
  !(a._receivedByUsers.contains u._id) &&
  decide (u.profile.created < a.articleDate) &&
  !(a.isPublished == some false) &&
  a.isPriority

/-- getNextBreakingNewsForUser (lines 130 to 146): the first article under
ascending article date among those matching the conditions, or none (the
source returns recArticle or else null). -/
def getNextBreakingNewsForUser (db : DB) (u : UserRec) : Option ArticleRec :=
  (sortByKey (fun a => a.articleDate) (db.articles.filter (breakingNewsConditions u))).head?

/-- A button of the carousel element (lines 42 to 47). -/
structure CarouselButton where
  buttonType : String
  label : String
  payload : String
  sharing : Bool
  deriving DecidableEq

/-- A carousel element (lines 38 to 48). -/
structure CarouselElement where
  label : String
  text : String
  imageUrl : String
  buttons : List CarouselButton
  deriving DecidableEq

/-- The carousel body (lines 36 to 49). -/
structure Carousel where
  sharing : Bool
  elements : List CarouselElement
  deriving DecidableEq

/-- An outgoing message envelope, as produced by MessageObject.outgoing from
a user record and a content description. -/
structure OutMessage where
  recipientId : Nat
  text : Option String
  carousel : Option Carousel
  options : List String
  deriving DecidableEq

/-- constructBreakingNewMessages (lines 29 to 62): the short alert message
and the rich carousel card with the deep link parameterized by feed id,
article id and user id, returned as the pair (alertMessage,
carouselMessage). -/
def constructBreakingNewMessages (recUser : UserRec) (recArticle : ArticleRec) :
    OutMessage × OutMessage :=
  let alertMessage : OutMessage :=
    { recipientId := recUser._id
      text := some "Breaking news!"
      carousel := none
      options := [] }
  let carouselMessage : OutMessage :=
    { recipientId := recUser._id
      text := none
      carousel := some
        { sharing := true
          elements := [
            { label := recArticle.title
              text := recArticle.description
              imageUrl := recArticle.imageUrl
              buttons := [
                { buttonType := "url"
                  label := "Read"
                  payload := READ_SERVER_BASE_URL ++ "/" ++ toString recArticle.feedId ++
                    "/" ++ toString recArticle._id ++ "/" ++ toString recUser._id
                  sharing := true } ] } ] }
      options := ["More stories", "Main menu"] }
  (alertMessage, carouselMessage)

/-- The send capability sendMessage(user, message): true means the send
succeeded, false means the channel threw a transport error. -/
abbrev SendFn := UserRec → OutMessage → Bool

/-- Observable side effects of one dispatcher page: successful sends,
a throwing send, the received-set updates, and the batch queue delete. -/
inductive DbEvent where
  | sendOk (userId : Nat) (msg : OutMessage)
  | sendFailed (userId : Nat) (msg : OutMessage)
  | updateReceived (articleId : Nat) (userId : Nat)
  | deleteQueueItems (ids : List Nat)
  deriving DecidableEq

/-- True for the two send events; used to state that an aborted page
performed sends only. -/
def DbEvent.isSend : DbEvent → Bool
  | .sendOk _ _ => true
  | .sendFailed _ _ => true
  | .updateReceived _ _ => false
  | .deleteQueueItems _ => false

/-- Result of the send loop over one page (lines 73 to 86): the events of
the sends performed, the accumulated expendedQueueItemIds and
expendedQueueItemData arrays, and whether the loop ran to completion
without a send throwing. -/
structure LoopOut where
  events : List DbEvent
  ids : List Nat
  expended : List (UserRec × ArticleRec)
  ok : Bool
  deriving DecidableEq

/-- The for loop of sendQueuedItems (lines 77 to 86): for each queued item
in fetch order, send the alert and then the carousel card to the embedded
user snapshot; on the first send that throws, stop with the error (later
items are not attempted, the accumulator arrays are discarded by the
throw). -/
def sendLoop (send : SendFn) : List QueueItem → LoopOut
  | [] => ⟨[], [], [], true⟩
  | it :: rest =>
    let msgs := constructBreakingNewMessages it.userData it.articleData
    if send it.userData msgs.1 then
      if send it.userData msgs.2 then
        let r := sendLoop send rest
        ⟨.sendOk it.userData._id msgs.1 :: .sendOk it.userData._id msgs.2 :: r.events,
          it._id :: r.ids, (it.userData, it.articleData) :: r.expended, r.ok⟩
      else
        ⟨[.sendOk it.userData._id msgs.1, .sendFailed it.userData._id msgs.2], [], [], false⟩
    else
      ⟨[.sendFailed it.userData._id msgs.1], [], [], false⟩

/-- Add an element to a set represented as a list, the addToSet mutation
operator: a no-op when the element is already present. -/
def addToSet (x : Nat) (s : List Nat) : List Nat :=
  if s.contains x then s else s ++ [x]

/-- The single received-set update of lines 90 to 92 applied to one article
record: add the user id to the receivedByUsers set of the article. -/
def applyAddToSetReceived (uid : Nat) (a : ArticleRec) : ArticleRec :=
  { a with _receivedByUsers := addToSet uid a._receivedByUsers }

/-- database.update on the Article collection (lines 89 to 93) for one
(userData, articleData) pair: apply the received-set add to the article
whose identifier matches the articleData snapshot. -/
def markAsReceived (articles : List ArticleRec) (p : UserRec × ArticleRec) :
    List ArticleRec :=
  articles.map (fun a => if a._id == p.2._id then applyAddToSetReceived p.1._id a else a)

/-- database.deleteWhere on the queue collection (lines 98 to 100): delete
the records whose identifier is in the expended identifier set. -/
def deleteQueueWhereIdIn (queue : List QueueItem) (ids : List Nat) : List QueueItem :=
  queue.filter (fun it => !(ids.contains it._id))

/-- Result of the awaited portion of one sendQueuedItems invocation: the
state when its promise resolves, the events it performed, whether it
completed without throwing, and the skip value of the continuation it
scheduled through setTimeout (none when the page was empty or the page was
aborted by a throw). -/
structure StepOut where
  db : DB
  events : List DbEvent
  ok : Bool
  next : Option Nat
  deriving DecidableEq

/-- Body of sendQueuedItems (lines 67 to 108) given the store answer for
its page fetch: if the coalesced page is empty, return; otherwise run the
send loop, and on success issue the received-set updates (lines 89 to 95),
then the batch delete of the expended identifiers (lines 98 to 100), then
schedule the recursive continuation at skip plus BATCH_SIZE (lines 103 to
106).  A send that throws aborts the invocation before any update or
delete. -/
def sendQueuedItemsOnResponse (send : SendFn) (db : DB) (skip : Nat)
    (raw : Option (List QueueItem)) : StepOut :=
  let recQueueItems := getBatchOfQueuedItems raw
  if recQueueItems.isEmpty then ⟨db, [], true, none⟩
  else
    let loop := sendLoop send recQueueItems
    if loop.ok then
      let articles := loop.expended.foldl markAsReceived db.articles
      let queue := deleteQueueWhereIdIn db.queue loop.ids
      let events := loop.events ++
        loop.expended.map (fun p => DbEvent.updateReceived p.2._id p.1._id) ++
        [DbEvent.deleteQueueItems loop.ids]
      ⟨{ db with articles := articles, queue := queue }, events, true,
        some (skip + BATCH_SIZE)⟩
    else
      ⟨db, loop.events, false, none⟩

/-- The awaited portion of one sendQueuedItems invocation against the
concrete store: exactly what the promise returned by sendQueuedItems has
performed when it resolves; the setTimeout continuation (line 106) is not
awaited and is reported in the next field. -/
def sendQueuedItemsAwaited (send : SendFn) (db : DB) (skip : Nat) : StepOut :=
  sendQueuedItemsOnResponse send db skip (storeGetQueue db skip)

/-- Accumulated result of running a sendQueuedItems timer chain. -/
structure DrainOut where
  db : DB
  events : List DbEvent
  ok : Bool
  deriving DecidableEq

/-- The full timer chain of sendQueuedItems starting at a given skip: run
the awaited portion, then the scheduled continuation, until an invocation
schedules no continuation (its page was empty or it threw).  The fuel
argument only serves termination; every theorem below supplies enough fuel
for the chain to reach its terminal invocation. -/
def sendQueuedItemsFrom (send : SendFn) : Nat → DB → Nat → DrainOut
  | 0, db, _ => ⟨db, [], true⟩
  | Nat.succ fuel, db, skip =>
    let s := sendQueuedItemsAwaited send db skip
    match s.next with
    | none => ⟨s.db, s.events, s.ok⟩
    | some skip2 =>
      let r := sendQueuedItemsFrom send fuel s.db skip2
      ⟨r.db, s.events ++ r.events, r.ok⟩

/-- The queue insert of lines 163 to 166: insert one obligation embedding
the user and article snapshots, with a fresh identifier and the implicit
insertion timestamp. -/
def queueItemInsert (db : DB) (u : UserRec) (a : ArticleRec) : DB :=
  { db with
      queue := db.queue ++
        [{ _id := db.nextId
           addedDate := db.nextId
           userData := u
           articleData := a }]
      nextId := db.nextId + 1 }

/-- Body of the per-user iteration of queueBreakingNewsItems (lines 158 to
167) for one user: look up the next unread breaking news article; if none
is found, continue (the user is skipped), otherwise insert the
obligation. -/
def queueUserStep (db : DB) (u : UserRec) : DB :=
  match getNextBreakingNewsForUser db u with
  | none => db
  | some a => queueItemInsert db u a

/-- The sequential for loop of queueBreakingNewsItems over one page of
users (lines 158 to 167). -/
def queueUsersLoop (db : DB) : List UserRec → DB
  | [] => db
  | u :: rest => queueUsersLoop (queueUserStep db u) rest

/-- Result of the awaited portion of one queueBreakingNewsItems invocation:
the state when its promise resolves and, when the user page was non-empty,
the numCompletedUsers offset bound into the continuation scheduled at lines
170 to 173. -/
structure SelectorOut where
  db : DB
  next : Option Nat
  deriving DecidableEq

/-- Body of queueBreakingNewsItems (lines 151 to 175) given the store
answer for its user page fetch: if the coalesced page is empty, return;
otherwise run the per-user loop and schedule the continuation of lines 170
to 173. -/
def queueBreakingNewsItemsOnResponse (db : DB) (skip : Nat)
    (raw : Option (List UserRec)) : SelectorOut :=
  let recUsers := getBatchOfUsers raw
  if recUsers.isEmpty then ⟨db, none⟩
  else ⟨queueUsersLoop db recUsers, some (skip + BATCH_SIZE)⟩

/-- The awaited portion of one queueBreakingNewsItems invocation against
the concrete store. -/
def queueBreakingNewsItemsAwaited (db : DB) (skip : Nat) : SelectorOut :=
  queueBreakingNewsItemsOnResponse db skip (storeGetUsers db skip)

/-- The continuation actually scheduled by queueBreakingNewsItems at lines
170 to 173: the source binds sendQueuedItems (not queueBreakingNewsItems)
to the arguments (database, numCompletedUsers), so the call runs with
MessageObject equal to the number numCompletedUsers, sendMessage undefined
and skip 0.  If its queue page fetch is empty it returns; otherwise it
throws a type error at MessageObject.outgoing (line 31) before performing
any send, update or delete.  Either way it processes no further page of
users and leaves the store unchanged; the boolean records whether it ran
without throwing. -/
def misboundSelectorContinuation (db : DB) : DB × Bool :=
  if (getBatchOfQueuedItemsDB db 0).isEmpty then (db, true) else (db, false)

/-- One full pass of queueBreakingNewsItems starting at skip 0, including
the continuation it schedules: the awaited first page followed by the
misbound continuation of lines 170 to 173. -/
def selectorPass (db : DB) : DB :=
  let s := queueBreakingNewsItemsAwaited db 0
  match s.next with
  | none => s.db
  | some _ => (misboundSelectorContinuation s.db).1

/-- Result of the awaited portion of sendOutstanding. -/
structure OrchOut where
  db : DB
  events : List DbEvent
  ok : Bool
  deriving DecidableEq

/-- The awaited portion of sendOutstanding (lines 180 to 191): await the
first sendQueuedItems invocation (its first page), then await
queueBreakingNewsItems (its first user page), then await the second
sendQueuedItems invocation.  A rejection of the first awaited call
propagates to the caller and the later steps never run; no value is
returned beyond the final state.  Continuations scheduled by the three
calls through setTimeout are not awaited here. -/
def sendOutstandingAwaited (send : SendFn) (db : DB) : OrchOut :=
  let s1 := sendQueuedItemsAwaited send db 0
  if s1.ok then
    let s2 := queueBreakingNewsItemsAwaited s1.db 0
    let s3 := sendQueuedItemsAwaited send s2.db 0
    ⟨s3.db, s1.events ++ s3.events, s3.ok⟩
  else ⟨s1.db, s1.events, false⟩

/-- The send events a fully successful page produces, in fetch order: for
each item the alert first, then the carousel card. -/
def pageSendEvents : List QueueItem → List DbEvent
  | [] => []
  | it :: rest =>
    DbEvent.sendOk it.userData._id (constructBreakingNewMessages it.userData it.articleData).1 ::
    DbEvent.sendOk it.userData._id (constructBreakingNewMessages it.userData it.articleData).2 ::
    pageSendEvents rest

/-- The obligations the selector loop inserts when every user of the list
is matched with the article given by f, with fresh identifiers counting up
from n; a specification-side helper used to characterise queueUsersLoop. -/
def builtItems (f : UserRec → ArticleRec) (n : Nat) : List UserRec → List QueueItem
  | [] => []
  | u :: rest => ⟨n, n, u, f u⟩ :: builtItems f (n + 1) rest

/-- A send capability whose channel always delivers. -/
def sendAlwaysOk : SendFn := fun _ _ => true

/-- A send capability whose channel always throws. -/
def sendNever : SendFn := fun _ _ => false

/-- A send capability whose channel throws exactly on messages addressed to
the user with identifier 2. -/
def sendFailUser2 : SendFn := fun u _ => !(u._id == 2)

/-- A non-disabled user with the given identifier, profile created at time
zero. -/
def mkUser (i : Nat) : UserRec := ⟨i, ⟨none⟩, ⟨0⟩⟩

/-- A priority article with the given identifier, published at time 5, not
yet received by anyone. -/
def mkArticle (i : Nat) : ArticleRec := ⟨i, 1, "t", "d", "img", 5, none, true, []⟩

/-- A queued obligation with the given identifier and insertion stamp. -/
def mkQueueItem (i : Nat) : QueueItem := ⟨i, i, mkUser 0, mkArticle 0⟩

/-- A queued obligation whose embedded user carries the same identifier as
the item. -/
def mkQueueItemUser (i : Nat) : QueueItem := ⟨i, i, mkUser i, mkArticle 0⟩

/-- A store holding m queued obligations, no users and one article. -/
def dbQueueOnly (m : Nat) : DB := ⟨[], [mkArticle 0], (List.range m).map mkQueueItem, m⟩

/-- A store holding n non-disabled users, one eligible article and an empty
queue. -/
def dbUsersOnly (n : Nat) : DB := ⟨(List.range n).map mkUser, [mkArticle 7], [], 0⟩

/-- A store holding three queued obligations for the users 1, 2 and 3. -/
def dbThreeItems : DB :=
  ⟨[], [mkArticle 0], [mkQueueItemUser 1, mkQueueItemUser 2, mkQueueItemUser 3], 10⟩

/-- A store holding one queued obligation. -/
def dbOneItem : DB := ⟨[], [mkArticle 0], [mkQueueItem 0], 5⟩

/-- An eligible priority article published at time 3. -/
def artEarly : ArticleRec := ⟨21, 1, "t", "d", "img", 3, none, true, []⟩

/-- An eligible priority article published at time 5. -/
def artLate : ArticleRec := ⟨22, 1, "t", "d", "img", 5, none, true, []⟩

/-- A store holding one user and two eligible articles, the later-published
one listed first. -/
def dbTwoArticles : DB := ⟨[mkUser 0], [artLate, artEarly], [], 0⟩

/-- A user whose bot.disabled flag is set. -/
def disabledUser : UserRec := ⟨5, ⟨some true⟩, ⟨0⟩⟩

/-- A store whose single queued obligation embeds a user that has been
disabled after the obligation was enqueued. -/
def dbDisabledQueued : DB :=
  ⟨[disabledUser], [mkArticle 0], [⟨1, 1, disabledUser, mkArticle 0⟩], 10⟩

/-- Every field of an article record except the received set; used to state
that the received-set update mutates nothing else. -/
def articleSkeleton (a : ArticleRec) :
    Nat × Nat × String × String × String × Nat × Option Bool × Bool :=
  (a._id, a.feedId, a.title, a.description, a.imageUrl, a.articleDate,
    a.isPublished, a.isPriority)

theorem insertByKey_perm (key : α → Nat) (x : α) (l : List α) :
    List.Perm (insertByKey key x l) (x :: l) := by
  induction l with
  | nil => exact List.Perm.refl _
  | cons y l ih =>
    unfold insertByKey
    by_cases h : key y ≤ key x
    · simp only [if_pos h]
      exact (ih.cons y).trans (List.Perm.swap x y l)
    · simp only [if_neg h]
      exact List.Perm.refl _

theorem sortByKey_perm (key : α → Nat) (l : List α) :
    List.Perm (sortByKey key l) l := by
  induction l with
  | nil => exact List.Perm.refl _
  | cons x l ih =>
    exact (insertByKey_perm key x (sortByKey key l)).trans (ih.cons x)

theorem sortByKey_length (key : α → Nat) (l : List α) :
    (sortByKey key l).length = l.length :=
  (sortByKey_perm key l).length_eq

theorem mem_sortByKey (key : α → Nat) (l : List α) (a : α) :
    a ∈ sortByKey key l ↔ a ∈ l :=
  (sortByKey_perm key l).mem_iff

theorem insertByKey_pairwise (key : α → Nat) (x : α) (l : List α)
    (h : l.Pairwise (fun a b => key a ≤ key b)) :
    (insertByKey key x l).Pairwise (fun a b => key a ≤ key b) := by
  induction l with
  | nil => simp [insertByKey]
  | cons y l ih =>
    rw [List.pairwise_cons] at h
    unfold insertByKey
    by_cases hyx : key y ≤ key x
    · simp only [if_pos hyx]
      rw [List.pairwise_cons]
      refine ⟨?_, ih h.2⟩
      intro b hb
      rcases List.mem_cons.mp ((insertByKey_perm key x l).mem_iff.mp hb) with hb' | hb'
      · exact hb' ▸ hyx
      · exact h.1 b hb'
    · simp only [if_neg hyx]
      rw [List.pairwise_cons]
      refine ⟨?_, List.pairwise_cons.mpr h⟩
      intro b hb
      have hxy : key x ≤ key y := Nat.le_of_lt (Nat.lt_of_not_le hyx)
      rcases List.mem_cons.mp hb with hb' | hb'
      · exact hb' ▸ hxy
      · exact Nat.le_trans hxy (h.1 b hb')

theorem sortByKey_pairwise (key : α → Nat) (l : List α) :
    (sortByKey key l).Pairwise (fun a b => key a ≤ key b) := by
  induction l with
  | nil => simp [sortByKey]
  | cons x l ih => exact insertByKey_pairwise key x _ ih

theorem sortByKey_eq_self (key : α → Nat) (l : List α)
    (h : l.Pairwise (fun a b => key a < key b)) : sortByKey key l = l := by
  induction l with
  | nil => rfl
  | cons x l ih =>
    rw [List.pairwise_cons] at h
    show insertByKey key x (sortByKey key l) = x :: l
    rw [ih h.2]
    cases l with
    | nil => rfl
    | cons y l' =>
      have : ¬ key y ≤ key x := Nat.not_le_of_lt (h.1 y (List.mem_cons_self y l'))
      simp [insertByKey, this]

theorem sortByKey_head_min (key : α → Nat) (l : List α) (a : α) (rest : List α)
    (h : sortByKey key l = a :: rest) : ∀ b ∈ l, key a ≤ key b := by
  intro b hb
  have hmem : b ∈ a :: rest := h ▸ (mem_sortByKey key l b).mpr hb
  have hpw := sortByKey_pairwise key l
  rw [h, List.pairwise_cons] at hpw
  rcases List.mem_cons.mp hmem with hb' | hb'
  · exact hb' ▸ Nat.le_refl _
  · exact hpw.1 b hb'

theorem mem_pageSendEvents_alert (items : List QueueItem) (it : QueueItem)
    (h : it ∈ items) :
    DbEvent.sendOk it.userData._id
      (constructBreakingNewMessages it.userData it.articleData).1 ∈ pageSendEvents items := by
  induction items with
  | nil => cases h
  | cons j rest ih =>
    rcases List.mem_cons.mp h with h' | h'
    · subst h'; exact List.mem_cons_self _ _
    · exact List.mem_cons_of_mem _ (List.mem_cons_of_mem _ (ih h'))

theorem mem_pageSendEvents_card (items : List QueueItem) (it : QueueItem)
    (h : it ∈ items) :
    DbEvent.sendOk it.userData._id
      (constructBreakingNewMessages it.userData it.articleData).2 ∈ pageSendEvents items := by
  induction items with
  | nil => cases h
  | cons j rest ih =>
    rcases List.mem_cons.mp h with h' | h'
    · subst h'; exact List.mem_cons_of_mem _ (List.mem_cons_self _ _)
    · exact List.mem_cons_of_mem _ (List.mem_cons_of_mem _ (ih h'))

theorem sendLoop_ok (send : SendFn) (items : List QueueItem)
    (h : ∀ it ∈ items,
      send it.userData (constructBreakingNewMessages it.userData it.articleData).1 = true ∧
      send it.userData (constructBreakingNewMessages it.userData it.articleData).2 = true) :
    sendLoop send items =
      ⟨pageSendEvents items, items.map (fun it => it._id),
        items.map (fun it => (it.userData, it.articleData)), true⟩ := by
  induction items with
  | nil => rfl
  | cons it rest ih =>
    have h1 := (h it (List.mem_cons_self it rest)).1
    have h2 := (h it (List.mem_cons_self it rest)).2
    have hrest := ih (fun j hj => h j (List.mem_cons_of_mem it hj))
    unfold sendLoop
    simp only [h1, h2, if_pos, hrest, pageSendEvents, List.map_cons]

theorem sendLoop_events_isSend (send : SendFn) (items : List QueueItem) :
    ∀ e ∈ (sendLoop send items).events, e.isSend = true := by
  induction items with
  | nil => intro e he; cases he
  | cons it rest ih =>
    intro e he
    unfold sendLoop at he
    by_cases h1 : send it.userData (constructBreakingNewMessages it.userData it.articleData).1
    · by_cases h2 : send it.userData (constructBreakingNewMessages it.userData it.articleData).2
      · simp only [h1, h2, if_pos] at he
        rcases List.mem_cons.mp he with h' | h'
        · subst h'; rfl
        · rcases List.mem_cons.mp h' with h'' | h''
          · subst h''; rfl
          · exact ih e h''
      · simp only [h1, h2, if_pos, if_neg, Bool.false_eq_true, reduceIte] at he
        rcases List.mem_cons.mp he with h' | h'
        · subst h'; rfl
        · rcases List.mem_cons.mp h' with h'' | h''
          · subst h''; rfl
          · cases h''
    · simp only [h1, Bool.false_eq_true, reduceIte] at he
      rcases List.mem_cons.mp he with h' | h'
      · subst h'; rfl
      · cases h'

theorem sendQueuedItemsAwaited_empty (send : SendFn) (db : DB) (skip : Nat)
    (h : db.queue.length ≤ skip) :
    sendQueuedItemsAwaited send db skip = ⟨db, [], true, none⟩ := by
  have hlen : (sortByKey (fun it => it.addedDate) db.queue).length ≤ skip := by
    rw [sortByKey_length]; exact h
  have hdrop : (sortByKey (fun it => it.addedDate) db.queue).drop skip = [] :=
    List.drop_eq_nil_of_le hlen
  unfold sendQueuedItemsAwaited sendQueuedItemsOnResponse storeGetQueue
    getBatchOfQueuedItems
  simp [hdrop]

theorem contains_of_mem {l : List Nat} {x : Nat} (h : x ∈ l) : l.contains x = true := by
  simpa using h

theorem not_contains_of_not_mem {l : List Nat} {x : Nat} (h : x ∉ l) :
    l.contains x = false := by
  simpa using h

theorem filter_notContains_append (l1 l2 : List QueueItem)
    (h : ((l1 ++ l2).map (fun it => it._id)).Nodup) :
    (l1 ++ l2).filter (fun it => !((l1.map (fun it => it._id)).contains it._id)) = l2 := by
  rw [List.map_append] at h
  have hdisj := (List.nodup_append.mp h).2.2
  rw [List.filter_append]
  have h1 : l1.filter (fun it => !((l1.map (fun it => it._id)).contains it._id)) = [] := by
    rw [List.filter_eq_nil_iff]
    intro it hit
    have hmem : it._id ∈ l1.map (fun it => it._id) := List.mem_map_of_mem _ hit
    rw [contains_of_mem hmem]
    simp
  have h2 : l2.filter (fun it => !((l1.map (fun it => it._id)).contains it._id)) = l2 := by
    rw [List.filter_eq_self]
    intro it hit
    have hmem : it._id ∈ l2.map (fun it => it._id) := List.mem_map_of_mem _ hit
    have hnot : it._id ∉ l1.map (fun it => it._id) := fun hc => hdisj hc hmem
    rw [not_contains_of_not_mem hnot]
    rfl
  rw [h1, h2, List.nil_append]

theorem sendQueuedItemsAwaited_ascending (send : SendFn) (db : DB)
    (hall : ∀ it ∈ db.queue,
      send it.userData (constructBreakingNewMessages it.userData it.articleData).1 = true ∧
      send it.userData (constructBreakingNewMessages it.userData it.articleData).2 = true)
    (hsort : db.queue.Pairwise (fun a b => a.addedDate < b.addedDate))
    (hids : (db.queue.map (fun it => it._id)).Nodup)
    (hne : db.queue ≠ []) :
    (sendQueuedItemsAwaited send db 0).ok = true ∧
    (sendQueuedItemsAwaited send db 0).db.queue = db.queue.drop BATCH_SIZE ∧
    (sendQueuedItemsAwaited send db 0).db.users = db.users ∧
    (sendQueuedItemsAwaited send db 0).next = some BATCH_SIZE := by
  have hsorteq : sortByKey (fun it => it.addedDate) db.queue = db.queue :=
    sortByKey_eq_self _ _ hsort
  have hpagesub : List.Sublist (db.queue.take BATCH_SIZE) db.queue :=
    List.take_sublist BATCH_SIZE db.queue
  have hpage_ne : db.queue.take BATCH_SIZE ≠ [] := by
    cases hq : db.queue with
    | nil => exact absurd hq hne
    | cons it rest => simp [BATCH_SIZE]
  have hloop := sendLoop_ok send (db.queue.take BATCH_SIZE)
    (fun it hit => hall it (hpagesub.subset hit))
  have hdel : deleteQueueWhereIdIn db.queue
      ((db.queue.take BATCH_SIZE).map (fun it => it._id)) =
      db.queue.drop BATCH_SIZE := by
    have hnodup : (((db.queue.take BATCH_SIZE) ++ (db.queue.drop BATCH_SIZE)).map
        (fun it => it._id)).Nodup := by
      rw [List.take_append_drop]
      exact hids
    have := filter_notContains_append (db.queue.take BATCH_SIZE)
      (db.queue.drop BATCH_SIZE) hnodup
    rw [List.take_append_drop] at this
    exact this
  have hempty : (db.queue.take BATCH_SIZE).isEmpty = false := by
    cases hq : db.queue.take BATCH_SIZE with
    | nil => exact absurd hq hpage_ne
    | cons a l => rfl
  unfold sendQueuedItemsAwaited sendQueuedItemsOnResponse storeGetQueue
    getBatchOfQueuedItems
  rw [hsorteq]
  simp only [List.drop_zero, Option.getD_some, hempty, Bool.false_eq_true,
    reduceIte, hloop, hdel]
  simp

theorem getNextBreakingNewsForUser_articles (db db' : DB) (u : UserRec)
    (h : db.articles = db'.articles) :
    getNextBreakingNewsForUser db u = getNextBreakingNewsForUser db' u := by
  unfold getNextBreakingNewsForUser
  rw [h]

theorem builtItems_map_user (f : UserRec → ArticleRec) :
    ∀ (us : List UserRec) (n : Nat), (builtItems f n us).map (fun it => it.userData) = us := by
  intro us
  induction us with
  | nil => intro n; rfl
  | cons u rest ih =>
    intro n
    show u :: (builtItems f (n + 1) rest).map (fun it => it.userData) = u :: rest
    rw [ih (n + 1)]

theorem queueUsersLoop_spec (f : UserRec → ArticleRec) :
    ∀ (us : List UserRec) (db : DB),
      (∀ u ∈ us, getNextBreakingNewsForUser db u = some (f u)) →
      queueUsersLoop db us =
        { db with
            queue := db.queue ++ builtItems f db.nextId us
            nextId := db.nextId + us.length } := by
  intro us
  induction us with
  | nil =>
    intro db _
    show db = { db with queue := db.queue ++ [], nextId := db.nextId + 0 }
    simp
  | cons u rest ih =>
    intro db h
    have hu : getNextBreakingNewsForUser db u = some (f u) := h u (List.mem_cons_self u rest)
    have hstep : queueUserStep db u = queueItemInsert db u (f u) := by
      unfold queueUserStep
      rw [hu]
    show queueUsersLoop (queueUserStep db u) rest = _
    rw [hstep]
    have harts : (queueItemInsert db u (f u)).articles = db.articles := rfl
    have hrest : ∀ v ∈ rest,
        getNextBreakingNewsForUser (queueItemInsert db u (f u)) v = some (f v) := by
      intro v hv
      rw [getNextBreakingNewsForUser_articles _ db v harts]
      exact h v (List.mem_cons_of_mem u hv)
    rw [ih (queueItemInsert db u (f u)) hrest]
    show ({ db with
        queue := (db.queue ++ [⟨db.nextId, db.nextId, u, f u⟩]) ++ builtItems f (db.nextId + 1) rest
        nextId := (db.nextId + 1) + rest.length } : DB) = _
    have hq : (db.queue ++ [(⟨db.nextId, db.nextId, u, f u⟩ : QueueItem)]) ++
        builtItems f (db.nextId + 1) rest = db.queue ++ builtItems f db.nextId (u :: rest) := by
      rw [List.append_assoc]
      rfl
    have hn : (db.nextId + 1) + rest.length = db.nextId + (u :: rest).length := by
      show db.nextId + 1 + rest.length = db.nextId + (rest.length + 1)
      omega
    rw [hq, hn]

theorem misboundSelectorContinuation_fst (db : DB) :
    (misboundSelectorContinuation db).1 = db := by
  unfold misboundSelectorContinuation
  by_cases h : (getBatchOfQueuedItemsDB db 0).isEmpty <;> simp [h]

theorem queueUsersLoop_frame :
    ∀ (us : List UserRec) (db : DB),
      (queueUsersLoop db us).users = db.users ∧
      (queueUsersLoop db us).articles = db.articles ∧
      ∃ inserted, (queueUsersLoop db us).queue = db.queue ++ inserted := by
  intro us
  induction us with
  | nil =>
    intro db
    exact ⟨rfl, rfl, [], by show db.queue = db.queue ++ []; simp⟩
  | cons u rest ih =>
    intro db
    have hstep : (queueUserStep db u).users = db.users ∧
        (queueUserStep db u).articles = db.articles ∧
        ∃ ins, (queueUserStep db u).queue = db.queue ++ ins := by
      unfold queueUserStep
      cases getNextBreakingNewsForUser db u with
      | none => exact ⟨rfl, rfl, [], by simp⟩
      | some a => exact ⟨rfl, rfl, [⟨db.nextId, db.nextId, u, a⟩], rfl⟩
    obtain ⟨hu1, hu2, ins1, hq1⟩ := hstep
    obtain ⟨h1, h2, ins2, hq2⟩ := ih (queueUserStep db u)
    refine ⟨h1.trans hu1, h2.trans hu2, ins1 ++ ins2, ?_⟩
    show (queueUsersLoop (queueUserStep db u) rest).queue = _
    rw [hq2, hq1, List.append_assoc]

theorem sendQueuedItemsOnResponse_fail (send : SendFn) (db : DB) (skip : Nat)
    (raw : Option (List QueueItem))
    (h : (sendQueuedItemsOnResponse send db skip raw).ok = false) :
    sendQueuedItemsOnResponse send db skip raw =
      ⟨db, (sendLoop send (getBatchOfQueuedItems raw)).events, false, none⟩ := by
  unfold sendQueuedItemsOnResponse at *
  by_cases hemp : (getBatchOfQueuedItems raw).isEmpty
  · simp [hemp] at h
  · by_cases hok : (sendLoop send (getBatchOfQueuedItems raw)).ok
    · simp [hemp, hok] at h
    · simp only [hemp, Bool.false_eq_true, reduceIte, hok] at *

theorem addToSet_idem (x : Nat) (s : List Nat) :
    addToSet x (addToSet x s) = addToSet x s := by
  unfold addToSet
  by_cases h : x ∈ s
  · rw [contains_of_mem h]
    simp [h]
  · rw [not_contains_of_not_mem h]
    have h2 : (s ++ [x]).contains x = true := contains_of_mem (by simp)
    simp [h2]

theorem applyAddToSetReceived_idem (uid : Nat) (a : ArticleRec) :
    applyAddToSetReceived uid (applyAddToSetReceived uid a) = applyAddToSetReceived uid a := by
  show ({ a with
    _receivedByUsers := addToSet uid (addToSet uid a._receivedByUsers) } : ArticleRec) = _
  rw [addToSet_idem]
  rfl

theorem applyAddToSetReceived_skeleton (uid : Nat) (a : ArticleRec) :
    articleSkeleton (applyAddToSetReceived uid a) = articleSkeleton a := rfl

theorem queueBreakingNewsItemsAwaited_no_users (db : DB) (skip : Nat)
    (h : db.users = []) :
    queueBreakingNewsItemsAwaited db skip = ⟨db, none⟩ := by
  unfold queueBreakingNewsItemsAwaited queueBreakingNewsItemsOnResponse storeGetUsers
    getBatchOfUsers
  rw [h]
  have h1 : List.filter (fun u => !(u.bot.disabled == some true)) ([] : List UserRec) =
      [] := rfl
  rw [h1]
  have h2 : sortByKey (fun u => u._id) ([] : List UserRec) = [] := rfl
  rw [h2, List.drop_nil, List.take_nil]
  rfl

/-- C9: when the store get answers with a null (absent) result instead of a
list, getBatchOfQueuedItems and getBatchOfUsers coalesce it to an empty
list, so both the dispatcher page loop and the selector page loop stop
normally on an absent result: no events, no state change, no continuation
scheduled. -/
theorem null_store_result_coalesced_and_loops_stop :
    ∀ (send : SendFn) (db : DB) (skip : Nat),
      getBatchOfQueuedItems none = ([] : List QueueItem) ∧
      getBatchOfUsers none = ([] : List UserRec) ∧
      sendQueuedItemsOnResponse send db skip none = ⟨db, [], true, none⟩ ∧
      queueBreakingNewsItemsOnResponse db skip none = ⟨db, none⟩ := by
  intro send db skip
  exact ⟨rfl, rfl, rfl, rfl⟩

/-- C7: for every (user, article) pair, the received-set update issued by
the dispatcher (the addToSet mutation adding the user identifier to the
article's received set) is idempotent, and it never removes or otherwise
mutates any other article field. -/
theorem markAsReceived_idempotent_and_frame (articles : List ArticleRec)
    (p : UserRec × ArticleRec) :
    markAsReceived (markAsReceived articles p) p = markAsReceived articles p ∧
    (markAsReceived articles p).map articleSkeleton = articles.map articleSkeleton := by
  have hpoint : ∀ a : ArticleRec,
      (if (if a._id == p.2._id then applyAddToSetReceived p.1._id a else a)._id == p.2._id
        then applyAddToSetReceived p.1._id
          (if a._id == p.2._id then applyAddToSetReceived p.1._id a else a)
        else (if a._id == p.2._id then applyAddToSetReceived p.1._id a else a)) =
      (if a._id == p.2._id then applyAddToSetReceived p.1._id a else a) := by
    intro a
    by_cases h : (a._id == p.2._id) = true
    · have h2 : ((applyAddToSetReceived p.1._id a)._id == p.2._id) = true := h
      simp only [h, if_pos, h2, reduceIte]
      exact applyAddToSetReceived_idem p.1._id a
    · simp only [h, Bool.false_eq_true, reduceIte]
  have hskel : ∀ a : ArticleRec,
      articleSkeleton (if a._id == p.2._id then applyAddToSetReceived p.1._id a else a) =
      articleSkeleton a := by
    intro a
    by_cases h : (a._id == p.2._id) = true
    · simp only [h, reduceIte]
      exact applyAddToSetReceived_skeleton p.1._id a
    · simp only [h, Bool.false_eq_true, reduceIte]
  constructor
  · show List.map _ (List.map _ articles) = List.map _ articles
    rw [List.map_map]
    exact List.map_congr_left (fun a _ => hpoint a)
  · show List.map articleSkeleton (List.map _ articles) = List.map articleSkeleton articles
    rw [List.map_map]
    exact List.map_congr_left (fun a _ => hskel a)

/-- C8: a pass of the candidate selector writes only to the queue
collection: the User and Article collections are unchanged, and the queue
is only extended by newly inserted obligations. -/
theorem selectorPass_frame (db : DB) :
    (selectorPass db).users = db.users ∧
    (selectorPass db).articles = db.articles ∧
    ∃ inserted, (selectorPass db).queue = db.queue ++ inserted := by
  have hpass : selectorPass db = (queueBreakingNewsItemsAwaited db 0).db := by
    unfold selectorPass
    cases hn : (queueBreakingNewsItemsAwaited db 0).next with
    | none => simp [hn]
    | some k => simp [hn, misboundSelectorContinuation_fst]
  rw [hpass]
  unfold queueBreakingNewsItemsAwaited queueBreakingNewsItemsOnResponse
  by_cases h : (getBatchOfUsers (storeGetUsers db 0)).isEmpty
  · simp only [h, reduceIte]
    refine ⟨?_, ?_, ⟨[], ?_⟩⟩ <;> simp
  · simp only [h, Bool.false_eq_true, reduceIte]
    exact queueUsersLoop_frame _ db

/-- C3: when a send throws somewhere in a page, the dispatcher propagates
the error and performs none of that page's received-set updates and none of
its queue deletions: the store is unchanged (queue and articles intact), no
continuation is scheduled, and the only events of the aborted page are send
events, including the sends that succeeded earlier in the same page. -/
theorem dispatcher_send_failure_aborts_page (send : SendFn) (db : DB) (skip : Nat)
    (raw : Option (List QueueItem))
    (h : (sendQueuedItemsOnResponse send db skip raw).ok = false) :
    (sendQueuedItemsOnResponse send db skip raw).db = db ∧
    (sendQueuedItemsOnResponse send db skip raw).db.queue = db.queue ∧
    (sendQueuedItemsOnResponse send db skip raw).db.articles = db.articles ∧
    (sendQueuedItemsOnResponse send db skip raw).next = none ∧
    ∀ e ∈ (sendQueuedItemsOnResponse send db skip raw).events, e.isSend = true := by
  rw [sendQueuedItemsOnResponse_fail send db skip raw h]
  exact ⟨rfl, rfl, rfl, rfl, sendLoop_events_isSend send _⟩

/-- Witness for C3 at a concrete three-item page whose second item's send
throws: the state is unchanged and no continuation is scheduled. -/
theorem dispatcher_send_failure_aborts_page_witness :
    (sendQueuedItemsOnResponse sendFailUser2 dbThreeItems 0
      (storeGetQueue dbThreeItems 0)).db = dbThreeItems ∧
    (sendQueuedItemsOnResponse sendFailUser2 dbThreeItems 0
      (storeGetQueue dbThreeItems 0)).next = none := by
  have h := dispatcher_send_failure_aborts_page sendFailUser2 dbThreeItems 0
    (storeGetQueue dbThreeItems 0) (by decide)
  exact ⟨h.1, h.2.2.2.1⟩

/-- C5: within a page every item is handled sequentially in fetch order
with exactly two sends, the alert first and then the card; all sends of the
page precede every received-set update, and all received-set updates
precede the single batch delete of the page's processed identifiers, which
closes the page. -/
theorem dispatcher_page_event_order (send : SendFn) (db : DB) (skip : Nat)
    (items : List QueueItem)
    (hne : items ≠ [])
    (h : ∀ it ∈ items,
      send it.userData (constructBreakingNewMessages it.userData it.articleData).1 = true ∧
      send it.userData (constructBreakingNewMessages it.userData it.articleData).2 = true) :
    (sendQueuedItemsOnResponse send db skip (some items)).events =
      pageSendEvents items ++
      items.map (fun it => DbEvent.updateReceived it.articleData._id it.userData._id) ++
      [DbEvent.deleteQueueItems (items.map (fun it => it._id))] := by
  have hloop := sendLoop_ok send items h
  have hempty : items.isEmpty = false := by
    cases items with
    | nil => exact absurd rfl hne
    | cons a l => rfl
  unfold sendQueuedItemsOnResponse getBatchOfQueuedItems
  simp only [Option.getD_some, hempty, Bool.false_eq_true, reduceIte, hloop]
  rw [List.map_map]
  rfl

/-- Witness for C5 at a concrete two-item page with a succeeding channel. -/
theorem dispatcher_page_event_order_witness :
    (sendQueuedItemsOnResponse sendAlwaysOk dbOneItem 0
      (some [mkQueueItemUser 1, mkQueueItemUser 2])).events =
      pageSendEvents [mkQueueItemUser 1, mkQueueItemUser 2] ++
      [mkQueueItemUser 1, mkQueueItemUser 2].map
        (fun it => DbEvent.updateReceived it.articleData._id it.userData._id) ++
      [DbEvent.deleteQueueItems ([mkQueueItemUser 1, mkQueueItemUser 2].map
        (fun it => it._id))] :=
  dispatcher_page_event_order sendAlwaysOk dbOneItem 0
    [mkQueueItemUser 1, mkQueueItemUser 2] (by decide)
    (fun it _ => ⟨rfl, rfl⟩)

/-- C4: the article the selector looks up for a user is an article of the
store satisfying all four conditions (not yet received by the user,
published strictly after the user's profile creation, isPublished not
explicitly false, isPriority true) with the earliest publish date among all
satisfying articles; when no article satisfies the conditions none is
returned, no article satisfies them, and the per-user step inserts no
obligation.  In particular a selected article is always published strictly
after the profile creation time. -/
theorem getNextBreakingNewsForUser_spec (db : DB) (u : UserRec) :
    (∀ a, getNextBreakingNewsForUser db u = some a →
      a ∈ db.articles ∧ breakingNewsConditions u a = true ∧
      u.profile.created < a.articleDate ∧
      ∀ b ∈ db.articles, breakingNewsConditions u b = true →
        a.articleDate ≤ b.articleDate) ∧
    (getNextBreakingNewsForUser db u = none →
      ∀ b ∈ db.articles, breakingNewsConditions u b = false) ∧
    (getNextBreakingNewsForUser db u = none → queueUserStep db u = db) := by
  refine ⟨?_, ?_, ?_⟩
  · intro a ha
    unfold getNextBreakingNewsForUser at ha
    cases hs : sortByKey (fun a => a.articleDate)
        (db.articles.filter (breakingNewsConditions u)) with
    | nil => rw [hs] at ha; cases ha
    | cons a' rest =>
      rw [hs] at ha
      have haa : a = a' := by
        simpa using ha.symm
      subst haa
      have hmemsorted : a ∈ sortByKey (fun a => a.articleDate)
          (db.articles.filter (breakingNewsConditions u)) := by
        rw [hs]; exact List.mem_cons_self a rest
      have hmemfilter := (mem_sortByKey _ _ a).mp hmemsorted
      have hmem := List.mem_filter.mp hmemfilter
      have hcond := hmem.2
      have hdate : u.profile.created < a.articleDate := by
        have := hcond
        unfold breakingNewsConditions at this
        simp only [Bool.and_eq_true, decide_eq_true_eq] at this
        exact this.1.1.2
      refine ⟨hmem.1, hcond, hdate, ?_⟩
      intro b hb hbcond
      exact sortByKey_head_min _ _ a rest hs b (List.mem_filter.mpr ⟨hb, hbcond⟩)
  · intro hnone b hb
    unfold getNextBreakingNewsForUser at hnone
    cases hs : sortByKey (fun a => a.articleDate)
        (db.articles.filter (breakingNewsConditions u)) with
    | cons a' rest => rw [hs] at hnone; cases hnone
    | nil =>
      have hfl : db.articles.filter (breakingNewsConditions u) = [] := by
        have hlen := sortByKey_length (fun a => a.articleDate)
          (db.articles.filter (breakingNewsConditions u))
        rw [hs] at hlen
        exact List.eq_nil_of_length_eq_zero hlen.symm
      by_cases hc : breakingNewsConditions u b = true
      · have : b ∈ db.articles.filter (breakingNewsConditions u) :=
          List.mem_filter.mpr ⟨hb, hc⟩
        rw [hfl] at this
        cases this
      · exact Bool.eq_false_iff.mpr hc
  · intro hnone
    unfold queueUserStep
    rw [hnone]

/-- Witness for C4 at a store whose later-published eligible article is
listed first: the selector picks the earlier-published one. -/
theorem getNextBreakingNewsForUser_spec_witness :
    getNextBreakingNewsForUser dbTwoArticles (mkUser 0) = some artEarly ∧
    artEarly ∈ dbTwoArticles.articles ∧
    (mkUser 0).profile.created < artEarly.articleDate ∧
    artEarly.articleDate ≤ artLate.articleDate := by
  have h1 : getNextBreakingNewsForUser dbTwoArticles (mkUser 0) = some artEarly := by
    decide
  have hspec := (getNextBreakingNewsForUser_spec dbTwoArticles (mkUser 0)).1 artEarly h1
  exact ⟨h1, hspec.1, hspec.2.2.1, hspec.2.2.2 artLate (by decide) (by decide)⟩

/-- C10: the dispatcher's queue fetch uses an empty filter, so a queued
obligation is fetched and dispatched (its alert and card sent to the
embedded user) regardless of that user's disabled flag; the non-disabled
filter exists only in the selector's user fetch, every user of which has
bot.disabled not set to true. -/
theorem dispatcher_ignores_disabled_flag (send : SendFn) (db : DB)
    (it : QueueItem) (skip2 : Nat)
    (hmem : it ∈ db.queue)
    (hlen : db.queue.length ≤ BATCH_SIZE)
    (hall : ∀ jt ∈ getBatchOfQueuedItemsDB db 0,
      send jt.userData (constructBreakingNewMessages jt.userData jt.articleData).1 = true ∧
      send jt.userData (constructBreakingNewMessages jt.userData jt.articleData).2 = true) :
    it ∈ getBatchOfQueuedItemsDB db 0 ∧
    DbEvent.sendOk it.userData._id
      (constructBreakingNewMessages it.userData it.articleData).1
      ∈ (sendQueuedItemsAwaited send db 0).events ∧
    DbEvent.sendOk it.userData._id
      (constructBreakingNewMessages it.userData it.articleData).2
      ∈ (sendQueuedItemsAwaited send db 0).events ∧
    ∀ v ∈ getBatchOfUsersDB db skip2, ¬(v.bot.disabled = some true) := by
  have hpage : getBatchOfQueuedItemsDB db 0 =
      sortByKey (fun it => it.addedDate) db.queue := by
    unfold getBatchOfQueuedItemsDB getBatchOfQueuedItems storeGetQueue
    rw [Option.getD_some, List.drop_zero]
    exact List.take_of_length_le (by rw [sortByKey_length]; exact hlen)
  have hmempage : it ∈ getBatchOfQueuedItemsDB db 0 := by
    rw [hpage, mem_sortByKey]
    exact hmem
  have hempty : (getBatchOfQueuedItemsDB db 0).isEmpty = false := by
    cases hq : getBatchOfQueuedItemsDB db 0 with
    | nil => rw [hq] at hmempage; cases hmempage
    | cons a l => rfl
  have hloop := sendLoop_ok send (getBatchOfQueuedItemsDB db 0) hall
  have hawationresp : sendQueuedItemsAwaited send db 0 =
      sendQueuedItemsOnResponse send db 0 (some (getBatchOfQueuedItemsDB db 0)) := rfl
  have hev : (sendQueuedItemsAwaited send db 0).events =
      pageSendEvents (getBatchOfQueuedItemsDB db 0) ++
      ((getBatchOfQueuedItemsDB db 0).map
        (fun p => (p.userData, p.articleData))).map
        (fun p => DbEvent.updateReceived p.2._id p.1._id) ++
      [DbEvent.deleteQueueItems ((getBatchOfQueuedItemsDB db 0).map (fun it => it._id))] := by
    rw [hawationresp]
    unfold sendQueuedItemsOnResponse getBatchOfQueuedItems
    simp only [Option.getD_some, hempty, Bool.false_eq_true, reduceIte, hloop]
  refine ⟨hmempage, ?_, ?_, ?_⟩
  · rw [hev]
    exact List.mem_append_left _ (List.mem_append_left _
      (mem_pageSendEvents_alert _ it hmempage))
  · rw [hev]
    exact List.mem_append_left _ (List.mem_append_left _
      (mem_pageSendEvents_card _ it hmempage))
  · intro v hv
    unfold getBatchOfUsersDB getBatchOfUsers storeGetUsers at hv
    rw [Option.getD_some] at hv
    have hv2 := List.take_subset _ _ hv
    have hv3 := List.drop_subset _ _ hv2
    have hv4 := (mem_sortByKey _ _ v).mp hv3
    have hv5 := (List.mem_filter.mp hv4).2
    simp only [Bool.not_eq_true'] at hv5
    intro hc
    rw [hc] at hv5
    simp at hv5

/-- Witness for C10: a queued obligation embedding a now-disabled user is
still fetched and both its messages are sent. -/
theorem dispatcher_ignores_disabled_flag_witness :
    disabledUser.bot.disabled = some true ∧
    (⟨1, 1, disabledUser, mkArticle 0⟩ : QueueItem) ∈
      getBatchOfQueuedItemsDB dbDisabledQueued 0 ∧
    DbEvent.sendOk disabledUser._id
      (constructBreakingNewMessages disabledUser (mkArticle 0)).1
      ∈ (sendQueuedItemsAwaited sendAlwaysOk dbDisabledQueued 0).events := by
  have h := dispatcher_ignores_disabled_flag sendAlwaysOk dbDisabledQueued
    ⟨1, 1, disabledUser, mkArticle 0⟩ 0 (by decide) (by decide)
    (fun jt _ => ⟨rfl, rfl⟩)
  exact ⟨rfl, h.1, h.2.1⟩

theorem selectorPass_of_awaited (db X : DB) (k : Nat)
    (h : queueBreakingNewsItemsAwaited db 0 = ⟨X, some k⟩) :
    selectorPass db = X := by
  unfold selectorPass
  rw [h]
  exact misboundSelectorContinuation_fst X

theorem sendQueuedItemsFrom_step (send : SendFn) (fuel : Nat) (db : DB) (skip k : Nat)
    (h : (sendQueuedItemsAwaited send db skip).next = some k) :
    sendQueuedItemsFrom send (fuel + 1) db skip =
      ⟨(sendQueuedItemsFrom send fuel (sendQueuedItemsAwaited send db skip).db k).db,
        (sendQueuedItemsAwaited send db skip).events ++
          (sendQueuedItemsFrom send fuel (sendQueuedItemsAwaited send db skip).db k).events,
        (sendQueuedItemsFrom send fuel (sendQueuedItemsAwaited send db skip).db k).ok⟩ := by
  show (match (sendQueuedItemsAwaited send db skip).next with
    | none => DrainOut.mk (sendQueuedItemsAwaited send db skip).db
        (sendQueuedItemsAwaited send db skip).events
        (sendQueuedItemsAwaited send db skip).ok
    | some skip2 =>
      DrainOut.mk
        (sendQueuedItemsFrom send fuel (sendQueuedItemsAwaited send db skip).db skip2).db
        ((sendQueuedItemsAwaited send db skip).events ++
          (sendQueuedItemsFrom send fuel (sendQueuedItemsAwaited send db skip).db skip2).events)
        (sendQueuedItemsFrom send fuel (sendQueuedItemsAwaited send db skip).db skip2).ok) = _
  rw [h]

theorem sendQueuedItemsFrom_stops (send : SendFn) (fuel : Nat) (db : DB) (skip : Nat)
    (h : (sendQueuedItemsAwaited send db skip).next = none) :
    sendQueuedItemsFrom send (fuel + 1) db skip =
      ⟨(sendQueuedItemsAwaited send db skip).db,
        (sendQueuedItemsAwaited send db skip).events,
        (sendQueuedItemsAwaited send db skip).ok⟩ := by
  show (match (sendQueuedItemsAwaited send db skip).next with
    | none => DrainOut.mk (sendQueuedItemsAwaited send db skip).db
        (sendQueuedItemsAwaited send db skip).events
        (sendQueuedItemsAwaited send db skip).ok
    | some skip2 =>
      DrainOut.mk
        (sendQueuedItemsFrom send fuel (sendQueuedItemsAwaited send db skip).db skip2).db
        ((sendQueuedItemsAwaited send db skip).events ++
          (sendQueuedItemsFrom send fuel (sendQueuedItemsAwaited send db skip).db skip2).events)
        (sendQueuedItemsFrom send fuel (sendQueuedItemsAwaited send db skip).db skip2).ok) = _
  rw [h]

/-- C1: the claim fails on the code.  With 1001 non-disabled users (all
eligible for the same priority article), a selector pass starting at skip 0
enqueues obligations exactly for the first page of 1000 users; the user
with identifier 1000 is non-disabled, has an eligible article, yet no
obligation carries its identifier, because the continuation scheduled at
lines 170 to 173 binds sendQueuedItems instead of queueBreakingNewsItems,
so no second page of users is ever processed. -/
theorem selector_starves_users_beyond_first_page :
    (dbUsersOnly 1001).users.length = 1001 ∧
    mkUser 1000 ∈ (dbUsersOnly 1001).users ∧
    (mkUser 1000).bot.disabled ≠ some true ∧
    getNextBreakingNewsForUser (dbUsersOnly 1001) (mkUser 1000) = some (mkArticle 7) ∧
    (selectorPass (dbUsersOnly 1001)).queue.map (fun it => it.userData._id) =
      List.range 1000 ∧
    1000 ∉ List.range 1000 := by
  have husers : (dbUsersOnly 1001).users = (List.range 1001).map mkUser := rfl
  have hlen : (dbUsersOnly 1001).users.length = 1001 := by
    rw [husers, List.length_map, List.length_range]
  have hmem : mkUser 1000 ∈ (dbUsersOnly 1001).users := by
    rw [husers]
    exact List.mem_map_of_mem mkUser (List.mem_range.mpr (by omega))
  have hfilter : ((List.range 1001).map mkUser).filter
      (fun u => !(u.bot.disabled == some true)) = (List.range 1001).map mkUser := by
    rw [List.filter_eq_self]
    intro u hu
    obtain ⟨i, _, rfl⟩ := List.mem_map.mp hu
    rfl
  have hpw : ((List.range 1001).map mkUser).Pairwise (fun a b => a._id < b._id) :=
    List.Pairwise.map mkUser (fun a b h => h) (List.pairwise_lt_range 1001)
  have hsorteq : sortByKey (fun u => u._id) ((List.range 1001).map mkUser) =
      (List.range 1001).map mkUser := sortByKey_eq_self _ _ hpw
  have htakerange : (List.range 1001).take 1000 = List.range 1000 := by
    simp [List.take_range]
  have htake : ((List.range 1001).map mkUser).take BATCH_SIZE =
      (List.range 1000).map mkUser := by
    show ((List.range 1001).map mkUser).take 1000 = _
    rw [← List.map_take, htakerange]
  have hpagedef : getBatchOfUsersDB (dbUsersOnly 1001) 0 = (List.range 1000).map mkUser := by
    unfold getBatchOfUsersDB getBatchOfUsers storeGetUsers
    rw [Option.getD_some]
    show ((sortByKey (fun u => u._id) (((List.range 1001).map mkUser).filter
      (fun u => !(u.bot.disabled == some true)))).drop 0).take BATCH_SIZE = _
    rw [hfilter, hsorteq, List.drop_zero, htake]
  have hfound : ∀ u ∈ (List.range 1000).map mkUser,
      getNextBreakingNewsForUser (dbUsersOnly 1001) u = some (mkArticle 7) := by
    intro u hu
    obtain ⟨i, _, rfl⟩ := List.mem_map.mp hu
    rfl
  have hloop := queueUsersLoop_spec (fun _ => mkArticle 7) ((List.range 1000).map mkUser)
    (dbUsersOnly 1001) hfound
  have hne2 : ((List.range 1000).map mkUser) ≠ [] := by
    intro hc
    have := congrArg List.length hc
    simp at this
  have hne : (((List.range 1000).map mkUser).isEmpty) = false := by
    cases hq : (List.range 1000).map mkUser with
    | nil => exact absurd hq hne2
    | cons a l => rfl
  have hawaited : queueBreakingNewsItemsAwaited (dbUsersOnly 1001) 0 =
      ⟨queueUsersLoop (dbUsersOnly 1001) ((List.range 1000).map mkUser),
        some (0 + BATCH_SIZE)⟩ := by
    unfold queueBreakingNewsItemsAwaited queueBreakingNewsItemsOnResponse
    rw [show getBatchOfUsers (storeGetUsers (dbUsersOnly 1001) 0) =
      getBatchOfUsersDB (dbUsersOnly 1001) 0 from rfl, hpagedef]
    simp only [hne, Bool.false_eq_true, reduceIte]
  have hpass : selectorPass (dbUsersOnly 1001) =
      queueUsersLoop (dbUsersOnly 1001) ((List.range 1000).map mkUser) :=
    selectorPass_of_awaited (dbUsersOnly 1001) _ _ hawaited
  have hqueue : (selectorPass (dbUsersOnly 1001)).queue =
      builtItems (fun _ => mkArticle 7) 0 ((List.range 1000).map mkUser) := by
    have hnext : (dbUsersOnly 1001).nextId = 0 := rfl
    have hq0 : (dbUsersOnly 1001).queue = [] := rfl
    rw [hpass, hloop]
    show (dbUsersOnly 1001).queue ++
      builtItems (fun _ => mkArticle 7) (dbUsersOnly 1001).nextId
        ((List.range 1000).map mkUser) = _
    rw [hnext, hq0]
    exact List.nil_append _
  have hmapusers := builtItems_map_user (fun _ => mkArticle 7)
    ((List.range 1000).map mkUser) 0
  have hmap : (builtItems (fun _ => mkArticle 7) 0 ((List.range 1000).map mkUser)).map
      (fun it => it.userData._id) = List.range 1000 := by
    have h2 : (builtItems (fun _ => mkArticle 7) 0 ((List.range 1000).map mkUser)).map
        (fun it => it.userData._id) =
        ((builtItems (fun _ => mkArticle 7) 0 ((List.range 1000).map mkUser)).map
          (fun it => it.userData)).map (fun u => u._id) := by
      rw [List.map_map]
      rfl
    rw [h2, hmapusers, List.map_map]
    exact List.map_id (List.range 1000)
  refine ⟨hlen, hmem, by decide, rfl, ?_, by simp⟩
  rw [hqueue]
  exact hmap

/-- C2: the claim fails on the code.  With 1001 queued obligations and a
channel that always delivers, the drain chain starting at skip 0 processes
and deletes the first page of 1000, then advances skip to 1000 even though
the processed items were just deleted, so the next fetch over the single
remaining obligation is empty and the chain stops normally: the obligation
with identifier 1000 is never processed and remains queued, for any amount
of fuel beyond the two invocations the chain actually makes. -/
theorem dispatcher_skip_after_delete_strands_items :
    (dbQueueOnly 1001).queue.length = 1001 ∧
    ∀ extra : Nat,
      (sendQueuedItemsFrom sendAlwaysOk (extra + 2) (dbQueueOnly 1001) 0).ok = true ∧
      (sendQueuedItemsFrom sendAlwaysOk (extra + 2) (dbQueueOnly 1001) 0).db.queue =
        [mkQueueItem 1000] := by
  have hqdef : (dbQueueOnly 1001).queue = (List.range 1001).map mkQueueItem := rfl
  have hsort : ((List.range 1001).map mkQueueItem).Pairwise
      (fun a b => a.addedDate < b.addedDate) :=
    List.Pairwise.map mkQueueItem (fun a b h => h) (List.pairwise_lt_range 1001)
  have hids0 : ((List.range 1001).map mkQueueItem).map (fun it => it._id) =
      List.range 1001 := by
    rw [List.map_map]
    exact List.map_id (List.range 1001)
  have hids : (((List.range 1001).map mkQueueItem).map (fun it => it._id)).Nodup := by
    rw [hids0]
    exact List.nodup_range 1001
  have hne : ((List.range 1001).map mkQueueItem) ≠ [] := by
    intro hc
    have := congrArg List.length hc
    simp at this
  have hstep1 := sendQueuedItemsAwaited_ascending sendAlwaysOk (dbQueueOnly 1001)
    (fun it _ => ⟨rfl, rfl⟩) hsort hids hne
  obtain ⟨hok1, hq1, hu1, hn1⟩ := hstep1
  have hdrop : ((List.range 1001).map mkQueueItem).drop BATCH_SIZE =
      [mkQueueItem 1000] := by
    show ((List.range 1001).map mkQueueItem).drop 1000 = _
    rw [List.range_succ 1000, List.map_append]
    exact List.drop_left' (by simp)
  rw [hqdef, hdrop] at hq1
  have hlen2 : (sendQueuedItemsAwaited sendAlwaysOk (dbQueueOnly 1001) 0).db.queue.length ≤
      BATCH_SIZE := by
    rw [hq1]
    show 1 ≤ BATCH_SIZE
    decide
  have hstep2 := sendQueuedItemsAwaited_empty sendAlwaysOk
    (sendQueuedItemsAwaited sendAlwaysOk (dbQueueOnly 1001) 0).db BATCH_SIZE hlen2
  have hnext2 : (sendQueuedItemsAwaited sendAlwaysOk
      (sendQueuedItemsAwaited sendAlwaysOk (dbQueueOnly 1001) 0).db BATCH_SIZE).next =
      none := by
    rw [hstep2]
  refine ⟨by rw [hqdef]; simp, ?_⟩
  intro extra
  have hr : sendQueuedItemsFrom sendAlwaysOk (extra + 1)
      (sendQueuedItemsAwaited sendAlwaysOk (dbQueueOnly 1001) 0).db BATCH_SIZE =
      ⟨(sendQueuedItemsAwaited sendAlwaysOk (dbQueueOnly 1001) 0).db, [], true⟩ := by
    rw [sendQueuedItemsFrom_stops sendAlwaysOk extra _ BATCH_SIZE hnext2, hstep2]
  have hmain : sendQueuedItemsFrom sendAlwaysOk (extra + 2) (dbQueueOnly 1001) 0 =
      ⟨(sendQueuedItemsAwaited sendAlwaysOk (dbQueueOnly 1001) 0).db,
        (sendQueuedItemsAwaited sendAlwaysOk (dbQueueOnly 1001) 0).events ++ [], true⟩ := by
    show sendQueuedItemsFrom sendAlwaysOk (extra + 1 + 1) (dbQueueOnly 1001) 0 = _
    rw [sendQueuedItemsFrom_step sendAlwaysOk (extra + 1) (dbQueueOnly 1001) 0
      BATCH_SIZE hn1, hr]
  constructor
  · rw [hmain]
  · rw [hmain]
    exact hq1

theorem sendOutstandingAwaited_ok (send : SendFn) (db : DB)
    (h : (sendQueuedItemsAwaited send db 0).ok = true) :
    sendOutstandingAwaited send db =
      ⟨(sendQueuedItemsAwaited send
          (queueBreakingNewsItemsAwaited (sendQueuedItemsAwaited send db 0).db 0).db 0).db,
        (sendQueuedItemsAwaited send db 0).events ++
        (sendQueuedItemsAwaited send
          (queueBreakingNewsItemsAwaited (sendQueuedItemsAwaited send db 0).db 0).db 0).events,
        (sendQueuedItemsAwaited send
          (queueBreakingNewsItemsAwaited (sendQueuedItemsAwaited send db 0).db 0).db 0).ok⟩ := by
  unfold sendOutstandingAwaited
  simp only [h, reduceIte]

theorem sendOutstandingAwaited_ok_no_users (send : SendFn) (db : DB)
    (h1 : (sendQueuedItemsAwaited send db 0).ok = true)
    (h2 : (sendQueuedItemsAwaited send db 0).db.users = []) :
    (sendOutstandingAwaited send db).db =
      (sendQueuedItemsAwaited send (sendQueuedItemsAwaited send db 0).db 0).db := by
  rw [sendOutstandingAwaited_ok send db h1,
    queueBreakingNewsItemsAwaited_no_users _ 0 h2]

/-- C6 (amended): the awaited portions of the three calls of sendOutstanding
run strictly in sequence: a failure of the first awaited drain propagates
uncaught (the orchestrator rejects, the selector and second drain never run,
the store is unchanged) and, when the first awaited drain succeeds,
obligation-building starts from exactly the state the first awaited page
left and the second awaited drain determines the final state and outcome.
Continuation pages beyond the first are detached timer tasks and are not
part of what sendOutstanding awaits. -/
theorem sendOutstanding_awaits_steps_in_sequence (send : SendFn) (db : DB) :
    ((sendQueuedItemsAwaited send db 0).ok = false →
      (sendOutstandingAwaited send db).ok = false ∧
      (sendOutstandingAwaited send db).db = db ∧
      (sendOutstandingAwaited send db).events = (sendQueuedItemsAwaited send db 0).events) ∧
    ((sendQueuedItemsAwaited send db 0).ok = true →
      (sendOutstandingAwaited send db).db =
        (sendQueuedItemsAwaited send
          (queueBreakingNewsItemsAwaited (sendQueuedItemsAwaited send db 0).db 0).db 0).db ∧
      (sendOutstandingAwaited send db).ok =
        (sendQueuedItemsAwaited send
          (queueBreakingNewsItemsAwaited (sendQueuedItemsAwaited send db 0).db 0).db 0).ok) := by
  constructor
  · intro hfail
    have hdb : (sendQueuedItemsAwaited send db 0).db = db := by
      have h := sendQueuedItemsOnResponse_fail send db 0 (storeGetQueue db 0) hfail
      rw [show sendQueuedItemsAwaited send db 0 =
        sendQueuedItemsOnResponse send db 0 (storeGetQueue db 0) from rfl, h]
    unfold sendOutstandingAwaited
    simp only [hfail, Bool.false_eq_true, reduceIte]
    exact ⟨True.intro, hdb, True.intro⟩
  · intro hok
    unfold sendOutstandingAwaited
    simp only [hok, reduceIte]
    exact ⟨True.intro, True.intro⟩

/-- Witness for the amended C6: with a channel that always throws the
orchestrator rejects leaving the store unchanged, and with a channel that
always delivers the final state is the second awaited drain's state over
the selector's state over the first awaited drain's state. -/
theorem sendOutstanding_awaits_steps_in_sequence_witness :
    ((sendOutstandingAwaited sendNever dbOneItem).ok = false ∧
      (sendOutstandingAwaited sendNever dbOneItem).db = dbOneItem) ∧
    (sendOutstandingAwaited sendAlwaysOk dbOneItem).db =
      (sendQueuedItemsAwaited sendAlwaysOk
        (queueBreakingNewsItemsAwaited
          (sendQueuedItemsAwaited sendAlwaysOk dbOneItem 0).db 0).db 0).db := by
  constructor
  · have h := (sendOutstanding_awaits_steps_in_sequence sendNever dbOneItem).1 (by decide)
    exact ⟨h.1, h.2.1⟩
  · exact ((sendOutstanding_awaits_steps_in_sequence sendAlwaysOk dbOneItem).2 (by decide)).1

/-- C6: counterexample to the claim as frozen.  The first drain of
sendOutstanding is awaited only up to its first page: with 2001 leftover
obligations and an always-delivering channel, the promise of the first
sendQueuedItems call resolves with 1001 obligations still queued and a
drain continuation still pending on the timer (next skip 1000), and
obligation-building starts from that partially drained state, so the full
drain of the leftovers does not complete before the selector runs; after
all three awaited steps one obligation is still queued. -/
theorem orchestrator_builds_before_drain_completes :
    (dbQueueOnly 2001).queue.length = 2001 ∧
    (sendQueuedItemsAwaited sendAlwaysOk (dbQueueOnly 2001) 0).ok = true ∧
    (sendQueuedItemsAwaited sendAlwaysOk (dbQueueOnly 2001) 0).db.queue.length = 1001 ∧
    (sendQueuedItemsAwaited sendAlwaysOk (dbQueueOnly 2001) 0).next = some BATCH_SIZE ∧
    (sendOutstandingAwaited sendAlwaysOk (dbQueueOnly 2001)).db.queue.length = 1 := by
  have hsort : ((List.range 2001).map mkQueueItem).Pairwise
      (fun a b => a.addedDate < b.addedDate) :=
    List.Pairwise.map mkQueueItem (fun a b h => h) (List.pairwise_lt_range 2001)
  have hids0 : ((List.range 2001).map mkQueueItem).map (fun it => it._id) =
      List.range 2001 := by
    rw [List.map_map]
    exact List.map_id (List.range 2001)
  have hids : (((List.range 2001).map mkQueueItem).map (fun it => it._id)).Nodup := by
    rw [hids0]
    exact List.nodup_range 2001
  have hne : ((List.range 2001).map mkQueueItem) ≠ [] := by
    intro hc
    have := congrArg List.length hc
    simp at this
  obtain ⟨hok1, hq1, hu1, hn1⟩ := sendQueuedItemsAwaited_ascending sendAlwaysOk
    (dbQueueOnly 2001) (fun it _ => ⟨rfl, rfl⟩) hsort hids hne
  have hlen1 : (sendQueuedItemsAwaited sendAlwaysOk (dbQueueOnly 2001) 0).db.queue.length =
      1001 := by
    rw [hq1, List.length_drop]
    have hql : (dbQueueOnly 2001).queue.length = 2001 := by
      show ((List.range 2001).map mkQueueItem).length = 2001
      rw [List.length_map, List.length_range]
    rw [hql]
    decide
  have hu1' : (sendQueuedItemsAwaited sendAlwaysOk (dbQueueOnly 2001) 0).db.users = [] := by
    rw [hu1]
    rfl
  have hs2 := queueBreakingNewsItemsAwaited_no_users
    (sendQueuedItemsAwaited sendAlwaysOk (dbQueueOnly 2001) 0).db 0 hu1'
  have hsort2 : (sendQueuedItemsAwaited sendAlwaysOk (dbQueueOnly 2001) 0).db.queue.Pairwise
      (fun a b => a.addedDate < b.addedDate) := by
    rw [hq1]
    exact hsort.sublist (List.drop_sublist _ _)
  have hids2 : ((sendQueuedItemsAwaited sendAlwaysOk
      (dbQueueOnly 2001) 0).db.queue.map (fun it => it._id)).Nodup := by
    rw [hq1]
    exact hids.sublist ((List.drop_sublist _ _).map _)
  have hne2 : (sendQueuedItemsAwaited sendAlwaysOk (dbQueueOnly 2001) 0).db.queue ≠ [] := by
    intro hc
    rw [hc] at hlen1
    simp at hlen1
  obtain ⟨hok3, hq3, hu3, hn3⟩ := sendQueuedItemsAwaited_ascending sendAlwaysOk
    (sendQueuedItemsAwaited sendAlwaysOk (dbQueueOnly 2001) 0).db
    (fun it _ => ⟨rfl, rfl⟩) hsort2 hids2 hne2
  have hlen3 : (sendQueuedItemsAwaited sendAlwaysOk
      (sendQueuedItemsAwaited sendAlwaysOk (dbQueueOnly 2001) 0).db 0).db.queue.length =
      1 := by
    rw [hq3, List.length_drop, hlen1]
    decide
  have horch : (sendOutstandingAwaited sendAlwaysOk (dbQueueOnly 2001)).db =
      (sendQueuedItemsAwaited sendAlwaysOk
        (sendQueuedItemsAwaited sendAlwaysOk (dbQueueOnly 2001) 0).db 0).db :=
    sendOutstandingAwaited_ok_no_users sendAlwaysOk (dbQueueOnly 2001) hok1 hu1'
  refine ⟨?_, hok1, hlen1, hn1, ?_⟩
  · show ((List.range 2001).map mkQueueItem).length = 2001
    rw [List.length_map, List.length_range]
  · exact (congrArg (fun d : DB => d.queue.length) horch).trans hlen3
